import Mathlib

/- Shallow embedding of the DAW engine core
   (src/daw/daw_engine/daw_engine_final/src/daw_engine.c together with the
   public header daw_engine.h).

   Modelling conventions:
   * C `double` and `float` values are modelled as rationals; the floating
     constant 0.9997f of the peak follower becomes the exact rational
     9997/10000.
   * The miniaudio device and decoder are external collaborators; their
     outcomes enter as explicit parameters (a `deviceOk` flag for
     `ma_device_init`/`ma_device_start`, a `DecodeEnv` record for the
     decoder and the `malloc` calls inside `daw_track_load_file`).
   * The constant-power pan law uses `cosf`/`sinf`; the mixer is kept
     parametric in the pan-gain function `pg : pan -> (gl, gr)` because no
     stated property depends on the trigonometric values.
   * The global `ctx_t G` becomes an explicit state value threaded through
     every operation; the function-local `static uint32_t next_id` of
     `daw_track_create` (which survives `daw_shutdown`) is threaded
     separately as process state, reduced mod 2^32 as in C. -/

/-- daw_transport_state_t from daw_engine.h. -/
inductive TState where
  | stopped
  | playing
  | recording
  | paused
deriving DecidableEq

/-- daw_track_type_t from daw_engine.h. -/
inductive TrackType where
  | audio
  | midi
  | bus
  | master
deriving DecidableEq

/-- daw_result_t codes from daw_engine.h. -/
inductive DawResult where
  | ok
  | notInit
  | alreadyInit
  | audioDevice
  | invalidTrack
  | fileNotFound
  | outOfMemory
  | invalidParam
  | clipFull
deriving DecidableEq

def DAW_MAX_TRACKS : Nat := 64

def DAW_MAX_CLIPS_PER_TRACK : Nat := 128

def DAW_CHANNELS : Nat := 2

def DAW_DEFAULT_SR : Nat := 44100

def DAW_DEFAULT_BPM : ℚ := 120

def DAW_DEFAULT_BUFFER : Nat := 512

/-- 2^32: modulus of the C `uint32_t` track-id counter. -/
def U32_MOD : Nat := 4294967296

/-- clip_t: deinterleaved PCM plus musical placement. -/
structure Clip where
  l : List ℚ
  r : List ℚ
  n : Nat
  start_beat : ℚ
  len_beats : ℚ
  active : Bool
deriving DecidableEq

/-- track_t: one slot of the fixed track table.  The C `clips` array with
its `n_clips` counter is modelled by the list of the first `n_clips`
slots (clips are only ever appended at index `n_clips`). -/
structure Track where
  active : Bool
  id : Nat
  type : TrackType
  name : String
  vol : ℚ
  pan : ℚ
  muted : Bool
  soloed : Bool
  armed : Bool
  peak_l : ℚ
  peak_r : ℚ
  clips : List Clip
deriving DecidableEq

/-- ctx_t: the global engine state `G` (minus the opaque `ma_device` and
the mutex, which have no observable fields here). -/
structure Ctx where
  ready : Bool
  state : TState
  bpm : ℚ
  pos_beats : ℚ
  pos_secs : ℚ
  loop_on : Bool
  loop_start : ℚ
  loop_end : ℚ
  sr : Nat
  bits : Nat
  buf_frames : Nat
  tracks : List Track
  n_tracks : Nat
  any_solo : Bool
  master_vol : ℚ
  master_peak_l : ℚ
  master_peak_r : ℚ
deriving DecidableEq

/-- daw_config_t. -/
structure DawConfig where
  sample_rate : Nat
  bit_depth : Nat
  buffer_frames : Nat
  bpm : ℚ
deriving DecidableEq

/-- daw_state_t: the snapshot filled by daw_get_state. -/
structure DawState where
  transport : TState
  bpm : ℚ
  sample_rate : Nat
  bit_depth : Nat
  position_beats : ℚ
  position_seconds : ℚ
  bar : Nat
  beat : Nat
  master_volume : ℚ
  master_peak_l : ℚ
  master_peak_r : ℚ
  track_count : Nat
  loop_enabled : Bool
  loop_start_beat : ℚ
  loop_end_beat : ℚ
deriving DecidableEq

/-- An all-zero clip slot (`memset` image). -/
def zeroClip : Clip :=
  { l := [], r := [], n := 0, start_beat := 0, len_beats := 0, active := false }

/-- An all-zero track slot (`memset` image). -/
def zeroTrack : Track :=
  { active := false, id := 0, type := .audio, name := "", vol := 0, pan := 0
  , muted := false, soloed := false, armed := false, peak_l := 0, peak_r := 0
  , clips := [] }

/-- The zeroed global: `static ctx_t G = {0}` and the `memset(&G, 0, ...)`
in daw_init/daw_shutdown.  The 64-entry track array zeroes to 64 inactive
slots. -/
def zeroCtx : Ctx :=
  { ready := false, state := .stopped, bpm := 0, pos_beats := 0, pos_secs := 0
  , loop_on := false, loop_start := 0, loop_end := 0, sr := 0, bits := 0
  , buf_frames := 0, tracks := List.replicate DAW_MAX_TRACKS zeroTrack
  , n_tracks := 0, any_solo := false, master_vol := 0
  , master_peak_l := 0, master_peak_r := 0 }

/-- clampf helper: `v < lo ? lo : v > hi ? hi : v`. -/
def clampf (v lo hi : ℚ) : ℚ :=
  if v < lo then lo else if hi < v then hi else v

/-- peak_update helper: `if (a > *p) *p = a; else *p *= 0.9997f`. -/
def peak_update (p s : ℚ) : ℚ :=
  if p < |s| then |s| else p * (9997 / 10000)

/-- C `fmod` for the arguments arising in the loop wrap (both positive
there): `fmod x d = x - d * trunc(x/d)`; for `x ≥ 0, d > 0` truncation
coincides with the floor used here. -/
def fmodQ (x d : ℚ) : ℚ :=
  x - d * (Int.floor (x / d) : ℚ)

/-- find_track: first slot that is active with the given id. -/
def find_track : List Track → Nat → Option Track
  | [], _ => none
  | t :: ts, id => if t.active && t.id == id then some t else find_track ts id

/-- In-place mutation through the pointer returned by find_track: update
the first active slot with the given id. -/
def modify_track : List Track → Nat → (Track → Track) → List Track
  | [], _, _ => []
  | t :: ts, id, g =>
      if t.active && t.id == id then g t :: ts else t :: modify_track ts id g

/-- refresh_solo: `any_solo` is true iff some active slot is soloed
(the C loop with early break). -/
def refresh_solo (l : List Track) : Bool :=
  l.any fun t => t.active && t.soloed

/- ── Lifecycle ─────────────────────────────────────────────── -/

/-- daw_init.  `cfg = none` models a NULL config pointer; `deviceOk`
models the combined success of `ma_device_init` and `ma_device_start`
(on failure the already-reset-and-configured state is left behind with
`ready = false`, exactly as in the C code). -/
def daw_init (cfg : Option DawConfig) (deviceOk : Bool) (s : Ctx) :
    DawResult × Ctx :=
  if s.ready = true then (.alreadyInit, s)
  else
    let g : Ctx :=
      { zeroCtx with
        sr := match cfg with | some c => c.sample_rate | none => DAW_DEFAULT_SR
      , bits := match cfg with | some c => c.bit_depth | none => 24
      , buf_frames := match cfg with
          | some c => c.buffer_frames
          | none => DAW_DEFAULT_BUFFER
      , bpm := match cfg with
          | some c => if 0 < c.bpm then c.bpm else DAW_DEFAULT_BPM
          | none => DAW_DEFAULT_BPM
      , master_vol := 1
      , state := .stopped }
    if deviceOk = false then (.audioDevice, g)
    else (.ok, { g with ready := true })

/-- daw_shutdown: stop the device, free all clip PCM, `memset(&G,0,...)`. -/
def daw_shutdown (s : Ctx) : DawResult × Ctx :=
  if s.ready = false then (.notInit, s) else (.ok, zeroCtx)

/-- daw_get_state.  `outValid` models a non-NULL out pointer; the filled
snapshot is returned as the optional second component. -/
def daw_get_state (outValid : Bool) (s : Ctx) : DawResult × Option DawState :=
  if s.ready = false then (.notInit, none)
  else if outValid = false then (.invalidParam, none)
  else
    (.ok, some
      { transport := s.state
      , bpm := s.bpm
      , sample_rate := s.sr
      , bit_depth := s.bits
      , position_beats := s.pos_beats
      , position_seconds := s.pos_secs
      , bar := (Int.floor (s.pos_beats / 4)).toNat + 1
      , beat := (Int.floor (fmodQ s.pos_beats 4)).toNat + 1
      , master_volume := s.master_vol
      , master_peak_l := s.master_peak_l
      , master_peak_r := s.master_peak_r
      , track_count := s.n_tracks
      , loop_enabled := s.loop_on
      , loop_start_beat := s.loop_start
      , loop_end_beat := s.loop_end })

/- ── Transport ─────────────────────────────────────────────── -/

/-- daw_play. -/
def daw_play (s : Ctx) : DawResult × Ctx :=
  if s.ready = false then (.notInit, s)
  else (.ok, { s with state := .playing })

/-- daw_stop: also resets the playhead to 0 in beats and seconds. -/
def daw_stop (s : Ctx) : DawResult × Ctx :=
  if s.ready = false then (.notInit, s)
  else (.ok, { s with state := .stopped, pos_beats := 0, pos_secs := 0 })

/-- daw_pause: only transitions out of Playing. -/
def daw_pause (s : Ctx) : DawResult × Ctx :=
  if s.ready = false then (.notInit, s)
  else if s.state = .playing then (.ok, { s with state := .paused })
  else (.ok, s)

/-- daw_record. -/
def daw_record (s : Ctx) : DawResult × Ctx :=
  if s.ready = false then (.notInit, s)
  else (.ok, { s with state := .recording })

/-- daw_seek: sets the beat position and recomputes seconds. -/
def daw_seek (s : Ctx) (beat : ℚ) : DawResult × Ctx :=
  if s.ready = false then (.notInit, s)
  else if beat < 0 then (.invalidParam, s)
  else (.ok, { s with pos_beats := beat, pos_secs := beat * (60 / s.bpm) })

/-- daw_set_bpm: note that it does NOT touch pos_beats / pos_secs. -/
def daw_set_bpm (s : Ctx) (bpm : ℚ) : DawResult × Ctx :=
  if s.ready = false then (.notInit, s)
  else if bpm < 1 ∨ 999 < bpm then (.invalidParam, s)
  else (.ok, { s with bpm := bpm })

/-- daw_set_loop. -/
def daw_set_loop (s : Ctx) (en : Bool) (a b : ℚ) : DawResult × Ctx :=
  if s.ready = false then (.notInit, s)
  else if b ≤ a then (.invalidParam, s)
  else (.ok, { s with loop_on := en, loop_start := a, loop_end := b })

/- ── Master ────────────────────────────────────────────────── -/

/-- daw_set_master_volume: rejects values outside [0,2] (it does not
clamp them). -/
def daw_set_master_volume (s : Ctx) (v : ℚ) : DawResult × Ctx :=
  if s.ready = false then (.notInit, s)
  else if v < 0 ∨ 2 < v then (.invalidParam, s)
  else (.ok, { s with master_vol := v })

/- ── Track operations ──────────────────────────────────────── -/

/-- The `tn` table of daw_track_create. -/
def typeName : TrackType → String
  | .audio => "Audio"
  | .midi => "MIDI"
  | .bus => "Bus"
  | .master => "Master"

/-- The freshly initialized track written into a free slot by
daw_track_create (memset to zero, then the explicit field writes).
`idx` is `G.n_tracks + 1` used in the snprintf'd default name. -/
def newTrack (id : Nat) (ty : TrackType) (idx : Nat) : Track :=
  { zeroTrack with
    active := true
  , id := id
  , type := ty
  , vol := 1
  , pan := 0
  , name := typeName ty ++ " " ++ toString idx }

/-- The slot scan of daw_track_create: place the new track into the first
inactive slot, `none` when every slot is active. -/
def place_track : List Track → Track → Option (List Track)
  | [], _ => none
  | t :: ts, nt =>
      if t.active = true then (place_track ts nt).map (fun r => t :: r)
      else some (nt :: ts)

/-- daw_track_create.  `nid` is the current value of the function-local
`static uint32_t next_id`; the result carries (result code, issued id if
any, new engine state, new next_id).  `t->id = next_id++` is uint32
arithmetic, hence the mod 2^32. -/
def daw_track_create (s : Ctx) (nid : Nat) (ty : TrackType) :
    DawResult × Option Nat × Ctx × Nat :=
  if s.ready = false then (.notInit, none, s, nid)
  else if DAW_MAX_TRACKS ≤ s.n_tracks then (.outOfMemory, none, s, nid)
  else
    match place_track s.tracks (newTrack (nid % U32_MOD) ty (s.n_tracks + 1)) with
    | none => (.outOfMemory, none, s, nid)
    | some ts =>
        (.ok, some (nid % U32_MOD)
        , { s with tracks := ts, n_tracks := s.n_tracks + 1 }
        , (nid + 1) % U32_MOD)

/-- daw_track_destroy: frees the clip PCM (no model content), marks the
slot inactive, decrements the count and refreshes any_solo. -/
def daw_track_destroy (s : Ctx) (id : Nat) : DawResult × Ctx :=
  if s.ready = false then (.notInit, s)
  else
    match find_track s.tracks id with
    | none => (.invalidTrack, s)
    | some _ =>
        let ts := modify_track s.tracks id (fun t => { t with active := false })
        let nt := s.n_tracks - 1
        (.ok, { s with tracks := ts, n_tracks := nt, any_solo := refresh_solo ts })

/-- daw_track_set_vol: stores clampf(v, 0, 2). -/
def daw_track_set_vol (s : Ctx) (id : Nat) (v : ℚ) : DawResult × Ctx :=
  if s.ready = false then (.notInit, s)
  else
    match find_track s.tracks id with
    | none => (.invalidTrack, s)
    | some _ =>
        let ts := modify_track s.tracks id (fun t => { t with vol := clampf v 0 2 })
        (.ok, { s with tracks := ts })

/-- daw_track_set_pan: stores clampf(p, -1, 1). -/
def daw_track_set_pan (s : Ctx) (id : Nat) (p : ℚ) : DawResult × Ctx :=
  if s.ready = false then (.notInit, s)
  else
    match find_track s.tracks id with
    | none => (.invalidTrack, s)
    | some _ =>
        let ts := modify_track s.tracks id (fun t => { t with pan := clampf p (-1) 1 })
        (.ok, { s with tracks := ts })

/-- daw_track_set_mute. -/
def daw_track_set_mute (s : Ctx) (id : Nat) (v : Bool) : DawResult × Ctx :=
  if s.ready = false then (.notInit, s)
  else
    match find_track s.tracks id with
    | none => (.invalidTrack, s)
    | some _ =>
        let ts := modify_track s.tracks id (fun t => { t with muted := v })
        (.ok, { s with tracks := ts })

/-- daw_track_set_solo: also refreshes any_solo. -/
def daw_track_set_solo (s : Ctx) (id : Nat) (v : Bool) : DawResult × Ctx :=
  if s.ready = false then (.notInit, s)
  else
    match find_track s.tracks id with
    | none => (.invalidTrack, s)
    | some _ =>
        let ts := modify_track s.tracks id (fun t => { t with soloed := v })
        (.ok, { s with tracks := ts, any_solo := refresh_solo ts })

/-- Decoder / allocator outcomes for daw_track_load_file:
`openOk` for ma_decoder_init_file, `decLen` for
ma_decoder_get_length_in_pcm_frames, `decRead maxFrames` for the
interleaved frames actually delivered by ma_decoder_read_pcm_frames,
and the three malloc outcomes. -/
structure DecodeEnv where
  openOk : Bool
  decLen : Nat
  decRead : Nat → List (ℚ × ℚ)
  allocIlvOk : Bool
  allocSlOk : Bool
  allocSrOk : Bool

/-- daw_track_load_file.  `pathValid` models a non-NULL path pointer.
The clip slot is populated only after decoding and all allocations
succeed.  The two malloc outcomes are pure flags of the environment, so
their checks are written before the (pure) frame-count and split
computations; the C interleaves them, with the same result and state on
every path. -/
def daw_track_load_file (env : DecodeEnv) (s : Ctx) (id : Nat)
    (pathValid : Bool) : DawResult × Ctx :=
  if s.ready = false then (.notInit, s)
  else if pathValid = false then (.invalidParam, s)
  else
    match find_track s.tracks id with
    | none => (.invalidTrack, s)
    | some t =>
        if DAW_MAX_CLIPS_PER_TRACK ≤ t.clips.length then (.clipFull, s)
        else if env.openOk = false then (.fileNotFound, s)
        else if env.allocIlvOk = false then (.outOfMemory, s)
        else if env.allocSlOk = false ∨ env.allocSrOk = false then
          (.outOfMemory, s)
        else
          let total := if env.decLen = 0 then s.sr * 30 else env.decLen
          let data := (env.decRead total).take total
          let cl : Clip :=
            { l := data.map Prod.fst
            , r := data.map Prod.snd
            , n := data.length
            , start_beat := 0
            , len_beats := (data.length : ℚ) / ((s.sr : ℚ) * 60 / s.bpm)
            , active := true }
          let ts := modify_track s.tracks id
            (fun t2 => { t2 with clips := t2.clips ++ [cl] })
          (.ok, { s with tracks := ts })

/- ── Mixer (audio_cb) ──────────────────────────────────────── -/

/-- `spb`: seconds per beat, `60.0 / G.bpm`. -/
def spbOf (s : Ctx) : ℚ := 60 / s.bpm

/-- `spf`: seconds per frame, `1.0 / G.sr`. -/
def spfOf (s : Ctx) : ℚ := 1 / (s.sr : ℚ)

/-- `bpf`: beats per frame, `spf / spb`. -/
def bpfOf (s : Ctx) : ℚ := spfOf s / spbOf s

/-- The per-frame loop wrap of the mixer:
`if (loop_on && beat_at >= loop_end) beat_at = loop_start + fmod(beat_at - loop_start, loop_end - loop_start)`. -/
def loopWrap (loopOn : Bool) (ls le beat : ℚ) : ℚ :=
  if loopOn = true ∧ le ≤ beat then ls + fmodQ (beat - ls) (le - ls) else beat

/-- One potential clip read of the inner mix loop at frame `f`: the
effective beat after the loop wrap, together with the raw left/right
samples, or `none` when one of the two range guards skips the frame.
The C index cast `(uint64_t)(offset * n)` truncates toward zero; in the
reached branch `offset ≥ 0`, where truncation is the floor used here. -/
def clipRead (loopOn : Bool) (ls le pos bpf : ℚ) (cl : Clip) (f : Nat) :
    Option (ℚ × ℚ × ℚ) :=
  let beat_at := loopWrap loopOn ls le (pos + (f : ℚ) * bpf)
  if beat_at < cl.start_beat ∨ cl.start_beat + cl.len_beats ≤ beat_at then none
  else
    let offset := (beat_at - cl.start_beat) / cl.len_beats
    let fi := (Int.floor (offset * (cl.n : ℚ))).toNat
    if cl.n ≤ fi then none
    else some (beat_at, cl.l.getD fi 0, cl.r.getD fi 0)

/-- Sum of the gain-scaled samples of every active clip of one track at
frame `f` (the `ci` loop of audio_cb, restricted to one frame). -/
def trackClipsContrib (loopOn : Bool) (ls le pos bpf gl gr : ℚ)
    (clips : List Clip) (f : Nat) : ℚ × ℚ :=
  clips.foldl (fun acc cl =>
    if cl.active = true then
      match clipRead loopOn ls le pos bpf cl f with
      | none => acc
      | some (_, l, r) => (acc.1 + l * gl, acc.2 + r * gr)
    else acc) (0, 0)

/-- The two `continue` guards of the track loop:
`!t->active || t->muted` and `any_solo && !t->soloed`. -/
def trackGate (anySolo : Bool) (t : Track) : Bool :=
  t.active && !t.muted && !(anySolo && !t.soloed)

/-- One track's step of the accumulator fold for frame `f`. -/
def mixStep (pg : ℚ → ℚ × ℚ) (anySolo loopOn : Bool) (ls le pos bpf : ℚ)
    (f : Nat) (acc : ℚ × ℚ) (t : Track) : ℚ × ℚ :=
  if trackGate anySolo t = true then
    let g := pg t.pan
    let c := trackClipsContrib loopOn ls le pos bpf (g.1 * t.vol) (g.2 * t.vol)
      t.clips f
    (acc.1 + c.1, acc.2 + c.2)
  else acc

/-- Final value of the mix accumulators `mix_l[f], mix_r[f]` after the
track loop (sample addition is commutative, so accumulating track-major
instead of frame-major yields the same totals as the C loop nest). -/
def mixTracks (pg : ℚ → ℚ × ℚ) (anySolo loopOn : Bool) (ls le pos bpf : ℚ)
    (f : Nat) (l : List Track) : ℚ × ℚ :=
  l.foldl (mixStep pg anySolo loopOn ls le pos bpf f) (0, 0)

/-- The per-track peak followers `tpl, tpr`: restarted from 0 each
callback and fed, in clip-then-frame order, with every sample actually
read for this track. -/
def trackPeaks (loopOn : Bool) (ls le pos bpf gl gr : ℚ)
    (clips : List Clip) (nf : Nat) : ℚ × ℚ :=
  clips.foldl (fun acc cl =>
    if cl.active = true then
      (List.range nf).foldl (fun acc2 f =>
        match clipRead loopOn ls le pos bpf cl f with
        | none => acc2
        | some (_, l, r) =>
            (peak_update acc2.1 (l * gl), peak_update acc2.2 (r * gr))) acc
    else acc) (0, 0)

/-- audio_cb: the realtime callback.  Returns the interleaved output
buffer (`nf * 2` samples) and the engine state after the callback. -/
def audio_cb (pg : ℚ → ℚ × ℚ) (s : Ctx) (nf : Nat) : List ℚ × Ctx :=
  if s.ready = false ∨ (¬s.state = TState.playing ∧ ¬s.state = TState.recording)
  then (List.replicate (nf * DAW_CHANNELS) 0, s)
  else
    let bpf := bpfOf s
    let newTracks := s.tracks.map (fun t =>
      if trackGate s.any_solo t = true then
        let g := pg t.pan
        let p := trackPeaks s.loop_on s.loop_start s.loop_end s.pos_beats bpf
          (g.1 * t.vol) (g.2 * t.vol) t.clips nf
        { t with peak_l := p.1, peak_r := p.2 }
      else t)
    let out := (List.range nf).flatMap (fun f =>
      let m := mixTracks pg s.any_solo s.loop_on s.loop_start s.loop_end
        s.pos_beats bpf f s.tracks
      [clampf (m.1 * s.master_vol) (-1) 1, clampf (m.2 * s.master_vol) (-1) 1])
    let mp := (List.range nf).foldl (fun acc f =>
      let m := mixTracks pg s.any_solo s.loop_on s.loop_start s.loop_end
        s.pos_beats bpf f s.tracks
      (peak_update acc.1 (clampf (m.1 * s.master_vol) (-1) 1),
       peak_update acc.2 (clampf (m.2 * s.master_vol) (-1) 1)))
      (s.master_peak_l, s.master_peak_r)
    let delta := (nf : ℚ) * spfOf s
    let pb := s.pos_beats + delta / spbOf s
    let s1 :=
      { s with tracks := newTracks, master_peak_l := mp.1, master_peak_r := mp.2 }
    if s.loop_on = true ∧ s.loop_end ≤ pb then
      (out, { s1 with pos_beats := s.loop_start, pos_secs := s.loop_start * spbOf s })
    else
      (out, { s1 with pos_beats := pb, pos_secs := s.pos_secs + delta })

/- ── Process model (for id uniqueness across the API lifetime) ── -/

/-- The control operations relevant to track-id issuance; `init` carries
the config and the device outcome, `create` the track type, `destroy`
the target id. -/
inductive Op where
  | init (cfg : Option DawConfig) (deviceOk : Bool)
  | shutdown
  | create (ty : TrackType)
  | destroy (id : Nat)

/-- Process-wide state: the global `G` plus the function-local
`static uint32_t next_id` of daw_track_create, which `daw_shutdown`
does not reset. -/
structure Proc where
  g : Ctx
  nid : Nat

/-- Fresh process: `G = {0}` and `next_id = 1`. -/
def initialProc : Proc := { g := zeroCtx, nid := 1 }

/-- One control call; the first component lists the track id issued by
this call (empty for every operation but a successful create). -/
def stepOp (p : Proc) (op : Op) : List Nat × Proc :=
  match op with
  | .init cfg dOk => ([], { p with g := (daw_init cfg dOk p.g).2 })
  | .shutdown => ([], { p with g := (daw_shutdown p.g).2 })
  | .create ty =>
      let r := daw_track_create p.g p.nid ty
      (match r.2.1 with | some i => [i] | none => []
      , { g := r.2.2.1, nid := r.2.2.2 })
  | .destroy id => ([], { p with g := (daw_track_destroy p.g id).2 })

/-- Run a sequence of control calls, concatenating the issued ids. -/
def runOps (p : Proc) : List Op → List Nat × Proc
  | [] => ([], p)
  | op :: ops =>
      let r := stepOp p op
      let rest := runOps r.2 ops
      (r.1 ++ rest.1, rest.2)

/- ── Derived predicates and concrete scenario states ───────── -/

/-- The derived-field invariant of the transport:
`position_seconds = position_beats * 60 / bpm`. -/
def posInv (s : Ctx) : Prop := s.pos_secs = s.pos_beats * 60 / s.bpm

/-- The set of accumulator slots the mix pass touches for a callback of
`nf` frames: `memset(mix_l, 0, sizeof(float)*nf)` and the master loop
index both cover exactly the offsets 0..nf-1 of `mix_l`/`mix_r`. -/
def mixIndices (nf : Nat) : List Nat := List.range nf

/-- A trivial pan-gain function used for concrete scenarios (the real
one computes `cosf`/`sinf`; its values are irrelevant everywhere it is
used below). -/
def pgFlat : ℚ → ℚ × ℚ := fun _ => (1, 1)

/-- A plain initialized engine: the state right after a successful
`daw_init(NULL)`. -/
def readyCtx : Ctx :=
  (daw_init none true zeroCtx).2

/-- Scenario state for the set_bpm invariant violation: bpm 60 with the
playhead at beat 1 = second 1 (the invariant holds here). -/
def c2CexCtx : Ctx :=
  { readyCtx with bpm := 60, pos_beats := 1, pos_secs := 1 }

/-- Scenario state for the loop-region claim: playing with the loop on
[2, 4) but the playhead still at beat 0, sample rate 1 Hz and bpm 60 so
one frame is exactly one beat. -/
def c4CexCtx : Ctx :=
  { readyCtx with
    state := .playing, bpm := 60, sr := 1, loop_on := true
  , loop_start := 2, loop_end := 4 }

/-- A clip holding one nonzero PCM frame. -/
def oneClip : Clip :=
  { l := [1], r := [1], n := 1, start_beat := 0, len_beats := 4, active := true }

/-- A muted track carrying that clip. -/
def mutedTrack : Track :=
  { zeroTrack with
    active := true, id := 1, vol := 1, muted := true, clips := [oneClip] }

/-- A decoder environment whose file open fails. -/
def badOpenEnv : DecodeEnv :=
  { openOk := false, decLen := 0, decRead := fun _ => []
  , allocIlvOk := true, allocSlOk := true, allocSrOk := true }

/-- Scenario state with one audio track (id 1) for the track-parameter
claims. -/
def oneTrackCtx : Ctx :=
  (daw_track_create readyCtx 1 .audio).2.2.1

/-- `n` create/destroy rounds starting with `next_id = m`: each round
creates one track (which receives id `m % 2^32`) and immediately
destroys it again, so the table never fills. -/
def cexOpsFrom : Nat → Nat → List Op
  | _, 0 => []
  | m, n+1 => Op.create TrackType.audio :: Op.destroy (m % U32_MOD) ::
      cexOpsFrom (m+1) n

/-- An init followed by 2^32 create/destroy rounds: enough successful
creates to wrap the uint32 id counter within one process lifetime. -/
def c8CexOps : List Op := Op.init none true :: cexOpsFrom 1 U32_MOD

/-- The ids such a run hands out. -/
def idsFrom : Nat → Nat → List Nat
  | _, 0 => []
  | m, n+1 => m % U32_MOD :: idsFrom (m+1) n

/-- Engine states from which a create/destroy round runs cleanly: ready,
empty table with at least one (necessarily inactive) slot. -/
def CleanTable (g : Ctx) : Prop :=
  g.ready = true ∧ g.n_tracks = 0 ∧ g.tracks ≠ [] ∧
    ∀ t ∈ g.tracks, t.active = false

/-- A config whose period size exceeds the 512-frame mix accumulators. -/
def bigBufCfg : DawConfig :=
  { sample_rate := 48000, bit_depth := 24, buffer_frames := 4096, bpm := 120 }

/-- The track sitting in slot 0 of `oneTrackCtx` (the first track ever
created: id 1). -/
def firstTrack : Track := newTrack (1 % U32_MOD) TrackType.audio 1

/-- A fresh engine set playing (no clips, loop off). -/
def playingCtx : Ctx := (daw_play readyCtx).2

/-- The loop scenario of c4CexCtx but with the playhead already inside
the loop region [2, 4). -/
def c4InLoopCtx : Ctx := { c4CexCtx with pos_beats := 2, pos_secs := 2 }

/- ════════════════════ THEOREMS ════════════════════ -/

/-- C1: whenever the engine is not ready or the transport is Stopped or
Paused, the audio callback emits exactly nf x 2 zero samples and leaves
position_beats and position_seconds untouched. -/
theorem c1_silence_when_idle (pg : ℚ → ℚ × ℚ) (s : Ctx) (nf : Nat)
    (h : s.ready = false ∨ s.state = TState.stopped ∨ s.state = TState.paused) :
    (audio_cb pg s nf).1 = List.replicate (nf * 2) 0 ∧
    (audio_cb pg s nf).2.pos_beats = s.pos_beats ∧
    (audio_cb pg s nf).2.pos_secs = s.pos_secs := by
  have hg : s.ready = false ∨
      (¬s.state = TState.playing ∧ ¬s.state = TState.recording) := by
    rcases h with h | h | h
    · exact Or.inl h
    · exact Or.inr (by rw [h]; exact ⟨by simp, by simp⟩)
    · exact Or.inr (by rw [h]; exact ⟨by simp, by simp⟩)
  rw [audio_cb, if_pos hg]
  exact ⟨rfl, rfl, rfl⟩

/-- Witness for C1: a stopped fresh engine and a 3-frame callback. -/
theorem c1_witness :
    (audio_cb pgFlat readyCtx 3).1 = List.replicate (3 * 2) 0 ∧
    (audio_cb pgFlat readyCtx 3).2.pos_beats = readyCtx.pos_beats ∧
    (audio_cb pgFlat readyCtx 3).2.pos_secs = readyCtx.pos_secs :=
  c1_silence_when_idle pgFlat readyCtx 3 (Or.inr (Or.inl (by decide)))

/-- C9: init on a ready engine fails with AlreadyInit and changes
nothing; shutdown and get_state on a non-initialized engine fail with
NotInit. -/
theorem c9_lifecycle_errors (s : Ctx) (cfg : Option DawConfig)
    (dOk : Bool) (ov : Bool) :
    (s.ready = true → daw_init cfg dOk s = (.alreadyInit, s)) ∧
    (s.ready = false → daw_shutdown s = (.notInit, s)) ∧
    (s.ready = false → daw_get_state ov s = (.notInit, none)) := by
  refine ⟨fun h => ?_, fun h => ?_, fun h => ?_⟩ <;>
    simp [daw_init, daw_shutdown, daw_get_state, h]

/-- Witness for C9: the concrete init-init / shutdown-shutdown /
shutdown-get_state pairs of scenario S6. -/
theorem c9_witness :
    daw_init none true readyCtx = (.alreadyInit, readyCtx) ∧
    daw_shutdown zeroCtx = (.notInit, zeroCtx) ∧
    daw_get_state true zeroCtx = (.notInit, none) :=
  ⟨(c9_lifecycle_errors readyCtx none true true).1 (by decide)
  , (c9_lifecycle_errors zeroCtx none true true).2.1 rfl
  , (c9_lifecycle_errors zeroCtx none true true).2.2 rfl⟩

/-- C10: the mix accumulators have fixed capacity DAW_DEFAULT_BUFFER =
512 frames; every accumulator offset the mix pass touches is below that
capacity precisely when nf ≤ 512; and daw_init accepts and stores any
cfg->buffer_frames without checking it against this capacity. -/
theorem c10_accumulator_capacity (nf b : Nat) (c : DawConfig) (s : Ctx)
    (h : s.ready = false) :
    DAW_DEFAULT_BUFFER = 512 ∧
    ((∀ i ∈ mixIndices nf, i < DAW_DEFAULT_BUFFER) ↔ nf ≤ DAW_DEFAULT_BUFFER) ∧
    (daw_init (some { c with buffer_frames := b }) true s).1 = .ok ∧
    (daw_init (some { c with buffer_frames := b }) true s).2.buf_frames = b := by
  refine ⟨rfl, ?_, ?_, ?_⟩
  · simp only [mixIndices, List.mem_range, DAW_DEFAULT_BUFFER]
    constructor
    · intro hall
      by_contra hn
      push_neg at hn
      exact absurd (hall 512 (by omega)) (by omega)
    · intro hle i hi
      omega
  · simp [daw_init, h]
  · simp [daw_init, h]

/-- Witness for C10: a not-ready engine initialized with a 4096-frame
period, eight times the accumulator capacity. -/
theorem c10_witness :
    DAW_DEFAULT_BUFFER = 512 ∧
    ((∀ i ∈ mixIndices 4096, i < DAW_DEFAULT_BUFFER) ↔ 4096 ≤ DAW_DEFAULT_BUFFER) ∧
    (daw_init (some { bigBufCfg with buffer_frames := 4096 }) true zeroCtx).1 = .ok ∧
    (daw_init (some { bigBufCfg with buffer_frames := 4096 }) true zeroCtx).2.buf_frames = 4096 :=
  c10_accumulator_capacity 4096 4096 bigBufCfg zeroCtx rfl

/-- Updating through the pointer returned by find_track is visible to
the next find_track, provided the update keeps the slot active with the
same id. -/
theorem find_modify_track (l : List Track) (id : Nat) (g : Track → Track)
    (hg : ∀ t2, (g t2).active = t2.active ∧ (g t2).id = t2.id) (t : Track)
    (h : find_track l id = some t) :
    find_track (modify_track l id g) id = some (g t) := by
  induction l with
  | nil => simp [find_track] at h
  | cons t0 ts ih =>
      by_cases hc : (t0.active && t0.id == id) = true
      · rw [find_track, if_pos hc] at h
        have ht : t0 = t := Option.some.inj h
        subst ht
        have hc2 : ((g t0).active && (g t0).id == id) = true := by
          obtain ⟨h1, h2⟩ := hg t0
          rw [Bool.and_eq_true] at hc ⊢
          exact ⟨by rw [h1]; exact hc.1, by rw [h2]; exact hc.2⟩
        rw [modify_track, if_pos hc, find_track, if_pos hc2]
      · rw [find_track, if_neg hc] at h
        rw [modify_track, if_neg hc, find_track, if_neg hc]
        exact ih h

/-- C2 (amended): the derived-field invariant
`position_seconds = position_beats * 60 / bpm` is preserved by play,
stop, pause, record, seek, set_loop and by every mix callback, and by
set_bpm when the playhead sits at beat 0.  (As stated the claim also
covered set_bpm at arbitrary positions; daw_set_bpm does not recompute
position_seconds, see the counterexample.) -/
theorem c2_derived_seconds_invariant (s : Ctx) (hbpm : 0 < s.bpm)
    (hinv : posInv s) :
    posInv (daw_play s).2 ∧ posInv (daw_stop s).2 ∧ posInv (daw_pause s).2 ∧
    posInv (daw_record s).2 ∧ (∀ b, posInv (daw_seek s b).2) ∧
    (∀ en a b, posInv (daw_set_loop s en a b).2) ∧
    (∀ pg nf, posInv (audio_cb pg s nf).2) ∧
    (∀ b, s.pos_beats = 0 → posInv (daw_set_bpm s b).2) := by
  have hb : s.bpm ≠ 0 := ne_of_gt hbpm
  refine ⟨?_, ?_, ?_, ?_, ?_, ?_, ?_, ?_⟩
  · unfold daw_play
    split <;> simpa [posInv] using hinv
  · unfold daw_stop
    split
    · simpa [posInv] using hinv
    · simp [posInv]
  · unfold daw_pause
    split
    · simpa [posInv] using hinv
    · split <;> simpa [posInv] using hinv
  · unfold daw_record
    split <;> simpa [posInv] using hinv
  · intro b
    unfold daw_seek
    split
    · simpa [posInv] using hinv
    · split
      · simpa [posInv] using hinv
      · simp [posInv, mul_div_assoc]
  · intro en a b
    unfold daw_set_loop
    split
    · simpa [posInv] using hinv
    · split <;> simpa [posInv] using hinv
  · intro pg nf
    simp only [audio_cb, posInv] at hinv ⊢
    split
    · exact hinv
    · split
      · simp [spbOf, mul_div_assoc]
      · simp only []
        rw [hinv]
        unfold spbOf
        field_simp
  · intro b h0
    have hs0 : s.pos_secs = 0 := by simpa [posInv, h0] using hinv
    unfold daw_set_bpm
    split
    · simpa [posInv] using hinv
    · split
      · simpa [posInv] using hinv
      · simp [posInv, h0, hs0]

/-- Counterexample for C2 as stated: from bpm 60, playhead at beat 1 =
second 1 (invariant holds), daw_set_bpm(120) returns OK but leaves
position_seconds at 1 while position_beats * 60 / bpm is now 1/2. -/
theorem c2_counterexample :
    posInv c2CexCtx ∧ (daw_set_bpm c2CexCtx 120).1 = DawResult.ok ∧
    ¬ posInv (daw_set_bpm c2CexCtx 120).2 := by
  refine ⟨?_, ?_, ?_⟩
  · unfold posInv
    norm_num [c2CexCtx, readyCtx, daw_init, zeroCtx]
  · decide
  · unfold posInv
    norm_num [daw_set_bpm, c2CexCtx, readyCtx, daw_init, zeroCtx]

/-- Witness for C2: the amended invariant checked on the concrete bpm-60
state with the playhead at beat 1. -/
theorem c2_witness :
    posInv (daw_play c2CexCtx).2 ∧ posInv (daw_stop c2CexCtx).2 ∧
    posInv (daw_pause c2CexCtx).2 ∧ posInv (daw_record c2CexCtx).2 ∧
    (∀ b, posInv (daw_seek c2CexCtx b).2) ∧
    (∀ en a b, posInv (daw_set_loop c2CexCtx en a b).2) ∧
    (∀ pg nf, posInv (audio_cb pg c2CexCtx nf).2) ∧
    (∀ b, c2CexCtx.pos_beats = 0 → posInv (daw_set_bpm c2CexCtx b).2) :=
  c2_derived_seconds_invariant c2CexCtx (by decide)
    (by unfold posInv; norm_num [c2CexCtx, readyCtx, daw_init, zeroCtx])

/-- C3 (amended): for an existing track, daw_track_set_vol stores
clampf(v,0,2) and daw_track_set_pan stores clampf(p,-1,1); for the
master volume, daw_set_master_volume stores v (= clampf(v,0,2)) only
when 0 ≤ v ≤ 2, and rejects any out-of-range v with InvalidParam,
leaving the stored master volume unchanged.  (As stated the claim also
asserted clamping for out-of-range master values, see the
counterexample.) -/
theorem c3_gain_clamping (s : Ctx) (id : Nat) (v p : ℚ) (t : Track)
    (hready : s.ready = true) (hfind : find_track s.tracks id = some t) :
    find_track (daw_track_set_vol s id v).2.tracks id
      = some { t with vol := clampf v 0 2 } ∧
    find_track (daw_track_set_pan s id p).2.tracks id
      = some { t with pan := clampf p (-1) 1 } ∧
    (∀ m : ℚ, 0 ≤ m ∧ m ≤ 2 →
      (daw_set_master_volume s m).2.master_vol = clampf m 0 2) ∧
    (∀ m : ℚ, m < 0 ∨ 2 < m →
      (daw_set_master_volume s m).1 = DawResult.invalidParam ∧
      (daw_set_master_volume s m).2 = s) := by
  refine ⟨?_, ?_, ?_, ?_⟩
  · have h2 := find_modify_track s.tracks id
      (fun t2 => { t2 with vol := clampf v 0 2 }) (fun t2 => ⟨rfl, rfl⟩) t hfind
    simpa [daw_track_set_vol, hready, hfind] using h2
  · have h2 := find_modify_track s.tracks id
      (fun t2 => { t2 with pan := clampf p (-1) 1 }) (fun t2 => ⟨rfl, rfl⟩) t hfind
    simpa [daw_track_set_pan, hready, hfind] using h2
  · rintro m ⟨h0, h2⟩
    simp [daw_set_master_volume, hready, clampf, not_lt.mpr h0, not_lt.mpr h2]
  · intro m hm
    rw [daw_set_master_volume, if_neg (by simp [hready]), if_pos hm]
    exact ⟨rfl, rfl⟩

/-- Counterexample for C3 as stated: on a fresh engine (master volume
1), daw_set_master_volume(3) does not store clampf(3,0,2) = 2; it is
rejected and the master volume stays 1. -/
theorem c3_counterexample :
    (daw_set_master_volume readyCtx 3).2.master_vol ≠ clampf 3 0 2 ∧
    (daw_set_master_volume readyCtx 3).1 = DawResult.invalidParam := by
  constructor
  · norm_num [daw_set_master_volume, clampf, readyCtx, daw_init, zeroCtx]
  · decide

/-- Witness for C3: the engine with one freshly created track (id 1),
setting vol to 5 (stored as 2), pan to -3 (stored as -1), master to 3/2
(stored as is) and master to 3 (rejected). -/
theorem c3_witness :
    find_track (daw_track_set_vol oneTrackCtx 1 5).2.tracks 1
      = some { firstTrack with vol := clampf 5 0 2 } ∧
    find_track (daw_track_set_pan oneTrackCtx 1 (-3)).2.tracks 1
      = some { firstTrack with pan := clampf (-3) (-1) 1 } ∧
    (∀ m : ℚ, 0 ≤ m ∧ m ≤ 2 →
      (daw_set_master_volume oneTrackCtx m).2.master_vol = clampf m 0 2) ∧
    (∀ m : ℚ, m < 0 ∨ 2 < m →
      (daw_set_master_volume oneTrackCtx m).1 = DawResult.invalidParam ∧
      (daw_set_master_volume oneTrackCtx m).2 = oneTrackCtx) :=
  c3_gain_clamping oneTrackCtx 1 5 (-3) firstTrack (by decide) (by decide)

/-- The playhead advance per callback, rewritten from the mixer's local
constants to the spec's form: `nf * spf / spb = nf * bpm / (sr * 60)`. -/
theorem advance_delta (s : Ctx) (nf : Nat) (_hb : s.bpm ≠ 0)
    (hs : (s.sr : ℚ) ≠ 0) :
    (nf : ℚ) * spfOf s / spbOf s = (nf : ℚ) * s.bpm / ((s.sr : ℚ) * 60) := by
  unfold spfOf spbOf
  field_simp

/-- C5: a Playing-state callback of nf frames with the loop disabled (or
the advanced position still below loop_end) advances position_seconds by
exactly nf / sr and position_beats by exactly nf * bpm / (sr * 60),
whatever tracks and clips exist. -/
theorem c5_playhead_conservation (pg : ℚ → ℚ × ℚ) (s : Ctx) (nf : Nat)
    (hready : s.ready = true) (hstate : s.state = TState.playing)
    (hbpm : 0 < s.bpm) (hsr : 0 < s.sr)
    (hnl : s.loop_on = false ∨
      s.pos_beats + (nf : ℚ) * s.bpm / ((s.sr : ℚ) * 60) < s.loop_end) :
    (audio_cb pg s nf).2.pos_secs = s.pos_secs + (nf : ℚ) / (s.sr : ℚ) ∧
    (audio_cb pg s nf).2.pos_beats
      = s.pos_beats + (nf : ℚ) * s.bpm / ((s.sr : ℚ) * 60) := by
  have hb : s.bpm ≠ 0 := ne_of_gt hbpm
  have hs : (s.sr : ℚ) ≠ 0 := Nat.cast_ne_zero.mpr (Nat.pos_iff_ne_zero.mp hsr)
  have hkey := advance_delta s nf hb hs
  have hgate : ¬(s.ready = false ∨
      (¬s.state = TState.playing ∧ ¬s.state = TState.recording)) := by
    simp [hready, hstate]
  have hcond : ¬(s.loop_on = true ∧
      s.loop_end ≤ s.pos_beats + (nf : ℚ) * spfOf s / spbOf s) := by
    rw [hkey]
    rcases hnl with h | h
    · rintro ⟨h1, _⟩
      rw [h] at h1
      cases h1
    · rintro ⟨_, h2⟩
      exact absurd h2 (not_le.mpr h)
  simp only [audio_cb]
  rw [if_neg hgate, if_neg hcond]
  constructor
  · show s.pos_secs + (nf : ℚ) * spfOf s = _
    rw [spfOf, mul_one_div]
  · show s.pos_beats + (nf : ℚ) * spfOf s / spbOf s = _
    rw [hkey]

/-- Witness for C5: a freshly initialized engine (SR 44100, bpm 120) set
playing, driven with one 64-frame callback. -/
theorem c5_witness :
    (audio_cb pgFlat playingCtx 64).2.pos_secs
      = playingCtx.pos_secs + (64 : ℚ) / (playingCtx.sr : ℚ) ∧
    (audio_cb pgFlat playingCtx 64).2.pos_beats
      = playingCtx.pos_beats
        + (64 : ℚ) * playingCtx.bpm / ((playingCtx.sr : ℚ) * 60) :=
  c5_playhead_conservation pgFlat playingCtx 64 (by decide) (by decide)
    (by decide) (by decide) (Or.inl (by decide))

/-- fmodQ with a positive divisor is nonnegative. -/
theorem fmodQ_nonneg (x d : ℚ) (hd : 0 < d) : 0 ≤ fmodQ x d := by
  unfold fmodQ
  have h1 : (Int.floor (x / d) : ℚ) ≤ x / d := Int.floor_le _
  have h2 : d * (Int.floor (x / d) : ℚ) ≤ d * (x / d) :=
    mul_le_mul_of_nonneg_left h1 hd.le
  have h3 : d * (x / d) = x := by field_simp
  linarith

/-- fmodQ with a positive divisor stays below it. -/
theorem fmodQ_lt (x d : ℚ) (hd : 0 < d) : fmodQ x d < d := by
  unfold fmodQ
  have h1 : x / d < (Int.floor (x / d) : ℚ) + 1 := Int.lt_floor_add_one _
  have h2 : d * (x / d) < d * ((Int.floor (x / d) : ℚ) + 1) :=
    mul_lt_mul_of_pos_left h1 hd
  have h3 : d * (x / d) = x := by field_simp
  rw [mul_add, mul_one] at h2
  linarith

/-- With the loop enabled on [ls, le), the wrap sends every beat ≥ le
into [ls, le). -/
theorem loopWrap_mem (ls le beat : ℚ) (hab : ls < le) (h : le ≤ beat) :
    ls ≤ loopWrap true ls le beat ∧ loopWrap true ls le beat < le := by
  unfold loopWrap
  rw [if_pos ⟨rfl, h⟩]
  have hd : 0 < le - ls := by linarith
  constructor
  · have := fmodQ_nonneg (beat - ls) (le - ls) hd
    linarith
  · have := fmodQ_lt (beat - ls) (le - ls) hd
    linarith

/-- With the loop enabled on [ls, le), the wrapped beat is always below
le (whether or not the wrap fires). -/
theorem loopWrap_lt_end (ls le beat : ℚ) (hab : ls < le) :
    loopWrap true ls le beat < le := by
  unfold loopWrap
  split
  · rename_i hcond
    have hd : 0 < le - ls := by linarith
    have := fmodQ_lt (beat - ls) (le - ls) hd
    linarith
  · rename_i hcond
    simp only [true_and] at hcond
    exact lt_of_not_le hcond

/-- Every sample the inner mix loop actually reads was read at an
effective beat below loop_end (with loop enabled on a nonempty region). -/
theorem clipRead_beat_lt_end (ls le pos bpf : ℚ) (cl : Clip) (f : Nat)
    (hab : ls < le) (out : ℚ × ℚ × ℚ)
    (h : clipRead true ls le pos bpf cl f = some out) :
    out.1 < le := by
  simp only [clipRead] at h
  split at h
  · exact absurd h (by simp)
  · split at h
    · exact absurd h (by simp)
    · have hout := Option.some.inj h
      have hb := loopWrap_lt_end ls le (pos + (f : ℚ) * bpf) hab
      rw [← hout]
      exact hb

/-- C4 (amended): with the loop enabled on [a, b), transport Playing and
the playhead already at or past a, every callback leaves position_beats
in [a, b); and independently of the playhead, the per-frame loop wrap
remaps every effective beat ≥ b into [a, b), so no clip sample is ever
read at an effective beat ≥ b.  (As stated the claim asserted
position_beats ∈ [a, b) with no assumption on the playhead; a playhead
still left of a merely advances, see the counterexample.) -/
theorem c4_loop_region (pg : ℚ → ℚ × ℚ) (s : Ctx) (nf : Nat)
    (hready : s.ready = true) (hstate : s.state = TState.playing)
    (hloop : s.loop_on = true) (hab : s.loop_start < s.loop_end)
    (hpos : s.loop_start ≤ s.pos_beats) (hbpm : 0 < s.bpm) (hsr : 0 < s.sr) :
    (s.loop_start ≤ (audio_cb pg s nf).2.pos_beats ∧
      (audio_cb pg s nf).2.pos_beats < s.loop_end) ∧
    (∀ beat, s.loop_end ≤ beat →
      s.loop_start ≤ loopWrap true s.loop_start s.loop_end beat ∧
      loopWrap true s.loop_start s.loop_end beat < s.loop_end) ∧
    (∀ (cl : Clip) (f : Nat) (out : ℚ × ℚ × ℚ),
      clipRead s.loop_on s.loop_start s.loop_end s.pos_beats (bpfOf s) cl f
        = some out → out.1 < s.loop_end) := by
  have hgate : ¬(s.ready = false ∨
      (¬s.state = TState.playing ∧ ¬s.state = TState.recording)) := by
    simp [hready, hstate]
  have hsr' : (0:ℚ) < (s.sr : ℚ) := by exact_mod_cast hsr
  have hdelta : 0 ≤ (nf : ℚ) * spfOf s / spbOf s := by
    unfold spfOf spbOf
    positivity
  refine ⟨?_, ?_, ?_⟩
  · simp only [audio_cb]
    rw [if_neg hgate]
    split
    · exact ⟨by simp, by simpa using hab⟩
    · rename_i hc
      have hlt : s.pos_beats + (nf : ℚ) * spfOf s / spbOf s < s.loop_end := by
        rcases not_and_or.mp hc with h | h
        · exact absurd hloop h
        · exact not_le.mp h
      have hge : s.loop_start ≤ s.pos_beats + (nf : ℚ) * spfOf s / spbOf s := by
        linarith
      exact ⟨by simpa using hge, by simpa using hlt⟩
  · intro beat hbeat
    exact loopWrap_mem s.loop_start s.loop_end beat hab hbeat
  · intro cl f out h
    rw [hloop] at h
    exact clipRead_beat_lt_end s.loop_start s.loop_end s.pos_beats (bpfOf s)
      cl f hab out h

/-- Counterexample for C4 as stated: loop enabled on [2, 4), Playing,
playhead at beat 0 (SR 1, bpm 60, so one frame advances one beat).
After a 1-frame callback the reported position is 1, not in [2, 4). -/
theorem c4_counterexample :
    c4CexCtx.loop_on = true ∧ c4CexCtx.state = TState.playing ∧
    c4CexCtx.loop_start < c4CexCtx.loop_end ∧
    (audio_cb pgFlat c4CexCtx 1).2.pos_beats < c4CexCtx.loop_start := by
  refine ⟨by decide, by decide, by decide, ?_⟩
  norm_num [audio_cb, c4CexCtx, readyCtx, daw_init, zeroCtx, spbOf, spfOf, bpfOf]

/-- Witness for C4: the same loop scenario with the playhead already at
beat 2 inside the loop region. -/
theorem c4_witness :
    (c4InLoopCtx.loop_start ≤ (audio_cb pgFlat c4InLoopCtx 1).2.pos_beats ∧
      (audio_cb pgFlat c4InLoopCtx 1).2.pos_beats < c4InLoopCtx.loop_end) ∧
    (∀ beat, c4InLoopCtx.loop_end ≤ beat →
      c4InLoopCtx.loop_start
        ≤ loopWrap true c4InLoopCtx.loop_start c4InLoopCtx.loop_end beat ∧
      loopWrap true c4InLoopCtx.loop_start c4InLoopCtx.loop_end beat
        < c4InLoopCtx.loop_end) ∧
    (∀ (cl : Clip) (f : Nat) (out : ℚ × ℚ × ℚ),
      clipRead c4InLoopCtx.loop_on c4InLoopCtx.loop_start c4InLoopCtx.loop_end
        c4InLoopCtx.pos_beats (bpfOf c4InLoopCtx) cl f = some out →
      out.1 < c4InLoopCtx.loop_end) :=
  c4_loop_region pgFlat c4InLoopCtx 1 (by decide) (by decide) (by decide)
    (by decide) (by decide) (by decide) (by decide)

/-- C6: a muted track, or any non-soloed track while any_solo is set,
contributes nothing to the mix accumulators: dropping it from the track
table leaves every per-frame accumulator value unchanged.  Moreover the
cached any_solo flag (as recomputed by refresh_solo) is true exactly
when some active track is soloed. -/
theorem c6_solo_mute_dominance (pg : ℚ → ℚ × ℚ) (anySolo loopOn : Bool)
    (ls le pos bpf : ℚ) (f : Nat) (t : Track) (l1 l2 l : List Track)
    (h : t.muted = true ∨ (anySolo = true ∧ t.soloed = false)) :
    mixTracks pg anySolo loopOn ls le pos bpf f (l1 ++ t :: l2)
      = mixTracks pg anySolo loopOn ls le pos bpf f (l1 ++ l2) ∧
    (refresh_solo l = true ↔ ∃ t2 ∈ l, t2.active = true ∧ t2.soloed = true) := by
  constructor
  · have hgate : trackGate anySolo t = false := by
      unfold trackGate
      rcases h with h | ⟨h1, h2⟩
      · simp [h]
      · simp [h1, h2]
    have hstep : ∀ acc, mixStep pg anySolo loopOn ls le pos bpf f acc t = acc := by
      intro acc
      unfold mixStep
      simp [hgate]
    unfold mixTracks
    rw [List.foldl_append, List.foldl_append, List.foldl_cons, hstep]
  · unfold refresh_solo
    simp [List.any_eq_true, Bool.and_eq_true]

/-- Witness for C6: a muted track holding a nonzero clip contributes
nothing: the singleton table mixes to the same accumulators as the empty
table. -/
theorem c6_witness :
    mixTracks pgFlat false false 0 4 0 1 0 ([] ++ mutedTrack :: [])
      = mixTracks pgFlat false false 0 4 0 1 0 ([] ++ []) ∧
    (refresh_solo [] = true ↔
      ∃ t2 ∈ ([] : List Track), t2.active = true ∧ t2.soloed = true) :=
  c6_solo_mute_dominance pgFlat false false 0 4 0 1 0 mutedTrack [] [] []
    (Or.inl rfl)

/-- C7: whenever daw_track_load_file returns an error (NotInit,
InvalidParam, InvalidTrack, ClipFull, FileNotFound, OutOfMemory), the
whole engine state — in particular the target track, its clip count and
its existing clips — is exactly what it was before the call: no partial
clip appears. -/
theorem c7_load_error_leaves_state (env : DecodeEnv) (s : Ctx) (id : Nat)
    (pv : Bool) (h : (daw_track_load_file env s id pv).1 ≠ DawResult.ok) :
    (daw_track_load_file env s id pv).2 = s := by
  revert h
  unfold daw_track_load_file
  split
  · exact fun _ => rfl
  · split
    · exact fun _ => rfl
    · split
      · exact fun _ => rfl
      · split
        · exact fun _ => rfl
        · split
          · exact fun _ => rfl
          · split
            · exact fun _ => rfl
            · split
              · exact fun _ => rfl
              · exact fun h => absurd rfl h

/-- Witness for C7: loading a file whose decoder open fails
(FileNotFound) on the one-track engine leaves the state untouched. -/
theorem c7_witness :
    (daw_track_load_file badOpenEnv oneTrackCtx 1 true).1 ≠ DawResult.ok ∧
    (daw_track_load_file badOpenEnv oneTrackCtx 1 true).2 = oneTrackCtx :=
  ⟨by decide, c7_load_error_leaves_state badOpenEnv oneTrackCtx 1 true (by decide)⟩

/-- Every control call either issues no id and leaves next_id alone, or
(a successful create) issues exactly the current next_id value and
advances it by one mod 2^32. -/
theorem stepOp_ids (p : Proc) (op : Op) :
    ((stepOp p op).1 = [] ∧ (stepOp p op).2.nid = p.nid) ∨
    ((stepOp p op).1 = [p.nid % U32_MOD] ∧
      (stepOp p op).2.nid = (p.nid + 1) % U32_MOD) := by
  cases op with
  | init cfg dOk => exact Or.inl ⟨rfl, rfl⟩
  | shutdown => exact Or.inl ⟨rfl, rfl⟩
  | destroy id => exact Or.inl ⟨rfl, rfl⟩
  | create ty =>
      by_cases h1 : p.g.ready = false
      · left
        simp [stepOp, daw_track_create, h1]
      · by_cases h2 : DAW_MAX_TRACKS ≤ p.g.n_tracks
        · left
          simp [stepOp, daw_track_create, h1, h2]
        · cases hp : place_track p.g.tracks
            (newTrack (p.nid % U32_MOD) ty (p.g.n_tracks + 1)) with
          | none =>
              left
              simp [stepOp, daw_track_create, h1, h2, hp]
          | some ts =>
              right
              simp [stepOp, daw_track_create, h1, h2, hp]

/-- Over any run, the ids issued are the consecutive uint32 values
starting at the initial next_id, and next_id ends up advanced by the
number of issued ids (all mod 2^32). -/
theorem runOps_ids (ops : List Op) : ∀ p : Proc, p.nid < U32_MOD →
    ∃ c : Nat,
      (runOps p ops).1 = (List.range c).map (fun k => (p.nid + k) % U32_MOD) ∧
      (runOps p ops).2.nid = (p.nid + c) % U32_MOD := by
  induction ops with
  | nil =>
      intro p hp
      exact ⟨0, rfl, by simp [runOps, Nat.mod_eq_of_lt hp]⟩
  | cons op ops ih =>
      intro p hp
      have hM : 0 < U32_MOD := by decide
      rcases stepOp_ids p op with ⟨h1, h2⟩ | ⟨h1, h2⟩
      · have hp2 : (stepOp p op).2.nid < U32_MOD := by rw [h2]; exact hp
        obtain ⟨c, ih1, ih2⟩ := ih (stepOp p op).2 hp2
        refine ⟨c, ?_, ?_⟩
        · show (stepOp p op).1 ++ (runOps (stepOp p op).2 ops).1 = _
          rw [h1, List.nil_append, ih1, h2]
        · show (runOps (stepOp p op).2 ops).2.nid = _
          rw [ih2, h2]
      · have hp2 : (stepOp p op).2.nid < U32_MOD := by
          rw [h2]
          exact Nat.mod_lt _ hM
        obtain ⟨c, ih1, ih2⟩ := ih (stepOp p op).2 hp2
        refine ⟨c + 1, ?_, ?_⟩
        · show (stepOp p op).1 ++ (runOps (stepOp p op).2 ops).1 = _
          rw [h1, ih1, h2, List.range_succ_eq_map, List.map_cons, List.map_map]
          have hfun : ((fun k => (p.nid + k) % U32_MOD) ∘ Nat.succ)
              = fun k => ((p.nid + 1) % U32_MOD + k) % U32_MOD := by
            funext k
            simp only [Function.comp, U32_MOD]
            omega
          rw [hfun]
          simp
        · show (runOps (stepOp p op).2 ops).2.nid = _
          rw [ih2, h2]
          simp only [U32_MOD]
          omega

/-- C8 (amended): starting from a fresh process, over any sequence of
control calls — creates, destroys, full shutdown/init cycles — in which
fewer than 2^32 creates succeed, the issued track ids are strictly
increasing and no id is ever issued twice.  (As stated the claim had no
bound on the number of creates; the uint32 id counter wraps after
2^32 issued ids, see the counterexample.) -/
theorem c8_track_ids_monotone (ops : List Op)
    (hc : (runOps initialProc ops).1.length < U32_MOD) :
    List.Pairwise (· < ·) (runOps initialProc ops).1 ∧
    (runOps initialProc ops).1.Nodup := by
  obtain ⟨c, h1, h2⟩ := runOps_ids ops initialProc (by decide)
  have hn1 : initialProc.nid = 1 := rfl
  rw [hn1] at h1
  have hlen : (runOps initialProc ops).1.length = c := by simp [h1]
  rw [hlen] at hc
  have hpw : List.Pairwise (· < ·) (runOps initialProc ops).1 := by
    rw [h1, List.pairwise_iff_getElem]
    intro i j hi hj hij
    simp only [List.length_map, List.length_range] at hi hj
    simp only [List.getElem_map, List.getElem_range]
    have hjlt : 1 + j < U32_MOD := by
      simp only [U32_MOD] at hc ⊢
      omega
    rw [Nat.mod_eq_of_lt (by omega), Nat.mod_eq_of_lt hjlt]
    omega
  exact ⟨hpw, hpw.imp (fun h => ne_of_lt h)⟩

/-- Witness for C8: init followed by two successful creates issues the
strictly increasing, duplicate-free ids [1, 2]. -/
theorem c8_witness :
    List.Pairwise (· < ·) (runOps initialProc
      [Op.init none true, Op.create TrackType.audio,
        Op.create TrackType.audio]).1 ∧
    (runOps initialProc
      [Op.init none true, Op.create TrackType.audio,
        Op.create TrackType.audio]).1.Nodup :=
  c8_track_ids_monotone
    [Op.init none true, Op.create TrackType.audio, Op.create TrackType.audio]
    (by decide)

/-- One create/destroy round from a clean table: the create succeeds in
slot 0 and issues the current next_id, the destroy removes that track
again, and the process is back to a clean table with next_id advanced by
one (mod 2^32). -/
theorem round_step (p : Proc) (m : Nat) (hm : p.nid = m % U32_MOD)
    (hc : CleanTable p.g) :
    (stepOp p (Op.create TrackType.audio)).1 = [m % U32_MOD] ∧
    (stepOp (stepOp p (Op.create TrackType.audio)).2
      (Op.destroy (m % U32_MOD))).1 = [] ∧
    CleanTable (stepOp (stepOp p (Op.create TrackType.audio)).2
      (Op.destroy (m % U32_MOD))).2.g ∧
    (stepOp (stepOp p (Op.create TrackType.audio)).2
      (Op.destroy (m % U32_MOD))).2.nid = (m + 1) % U32_MOD := by
  obtain ⟨hready, hnt, hne, hall⟩ := hc
  obtain ⟨t0, ts, hts⟩ : ∃ t0 ts, p.g.tracks = t0 :: ts := by
    cases hl : p.g.tracks with
    | nil => exact absurd hl hne
    | cons a b => exact ⟨a, b, rfl⟩
  have ht0 : t0.active = false :=
    hall t0 (by rw [hts]; exact List.mem_cons_self t0 ts)
  have hallts : ∀ t ∈ ts, t.active = false := fun t ht =>
    hall t (by rw [hts]; exact List.mem_cons_of_mem t0 ht)
  have hmm : m % U32_MOD % U32_MOD = m % U32_MOD :=
    Nat.mod_mod_of_dvd m dvd_rfl
  have hcr : stepOp p (Op.create TrackType.audio)
      = ([m % U32_MOD],
        ⟨{ p.g with
            tracks := newTrack (m % U32_MOD) TrackType.audio 1 :: ts
          , n_tracks := 1 }
        , (m % U32_MOD + 1) % U32_MOD⟩) := by
    simp [stepOp, daw_track_create, hready, hnt, hts, place_track, ht0, hm,
      hmm, DAW_MAX_TRACKS]
  have hfind : find_track (newTrack (m % U32_MOD) TrackType.audio 1 :: ts)
      (m % U32_MOD) = some (newTrack (m % U32_MOD) TrackType.audio 1) := by
    simp [find_track, newTrack, zeroTrack]
  have hmod : modify_track (newTrack (m % U32_MOD) TrackType.audio 1 :: ts)
      (m % U32_MOD) (fun t => { t with active := false })
      = { newTrack (m % U32_MOD) TrackType.audio 1 with active := false }
        :: ts := by
    simp [modify_track, newTrack, zeroTrack]
  refine ⟨by rw [hcr], rfl, ?_, ?_⟩
  · rw [hcr]
    unfold CleanTable
    simp [stepOp, daw_track_destroy, hready, hfind, hmod]
    intro t ht
    exact hallts t ht
  · rw [hcr]
    simp only [stepOp]
    exact Nat.mod_add_mod m U32_MOD 1

/-- Running n create/destroy rounds from a clean table issues exactly
the ids m, m+1, ... (each reduced mod 2^32). -/
theorem cexOpsFrom_ids (n : Nat) : ∀ (p : Proc) (m : Nat),
    p.nid = m % U32_MOD → CleanTable p.g →
    (runOps p (cexOpsFrom m n)).1 = idsFrom m n := by
  induction n with
  | zero =>
      intro p m _ _
      rfl
  | succ n ih =>
      intro p m hm hc
      obtain ⟨h1, h2, h3, h4⟩ := round_step p m hm hc
      have hih := ih (stepOp (stepOp p (Op.create TrackType.audio)).2
        (Op.destroy (m % U32_MOD))).2 (m + 1) h4 h3
      simp only [cexOpsFrom, runOps]
      rw [h1, h2, hih]
      simp [idsFrom]

/-- The ids of the counterexample run, in closed map form. -/
theorem idsFrom_eq_map (n : Nat) : ∀ m, idsFrom m n
    = (List.range n).map (fun k => (m + k) % U32_MOD) := by
  induction n with
  | zero =>
      intro m
      rfl
  | succ n ih =>
      intro m
      rw [idsFrom, List.range_succ_eq_map, List.map_cons, List.map_map,
        ih (m + 1)]
      have hfun : (fun k => (m + 1 + k) % U32_MOD)
          = ((fun k => (m + k) % U32_MOD) ∘ Nat.succ) := by
        funext k
        simp only [Function.comp, U32_MOD]
        omega
      rw [hfun]
      simp

/-- A freshly initialized engine is a clean table. -/
theorem readyCtx_clean : CleanTable readyCtx := by
  unfold CleanTable
  refine ⟨by decide, by decide, by decide, by decide⟩

/-- Counterexample for C8 as stated: within one process lifetime, an
init followed by 2^32 successful create/destroy rounds issues ids that
are not strictly increasing (the uint32 counter wraps: the id issued by
round 2^32 is 0, after round 1 issued 1). -/
theorem c8_counterexample :
    ¬ List.Pairwise (· < ·) (runOps initialProc c8CexOps).1 := by
  have hcons : runOps initialProc c8CexOps
      = ((stepOp initialProc (Op.init none true)).1
          ++ (runOps (stepOp initialProc (Op.init none true)).2
              (cexOpsFrom 1 U32_MOD)).1,
         (runOps (stepOp initialProc (Op.init none true)).2
            (cexOpsFrom 1 U32_MOD)).2) := rfl
  have hrun : (runOps initialProc c8CexOps).1 = idsFrom 1 U32_MOD := by
    rw [hcons]
    rw [cexOpsFrom_ids U32_MOD (stepOp initialProc (Op.init none true)).2 1
      (by decide) (by exact readyCtx_clean)]
    rfl
  rw [hrun, idsFrom_eq_map U32_MOD 1]
  intro hpw
  rw [List.pairwise_iff_getElem] at hpw
  have h0 : (0:Nat)
      < ((List.range U32_MOD).map fun k => (1 + k) % U32_MOD).length := by
    simp [U32_MOD]
  have h1 : U32_MOD - 1
      < ((List.range U32_MOD).map fun k => (1 + k) % U32_MOD).length := by
    simp [U32_MOD]
  have hlt : (0:Nat) < U32_MOD - 1 := by simp [U32_MOD]
  have hmono := hpw 0 (U32_MOD - 1) h0 h1 hlt
  simp only [List.getElem_map, List.getElem_range, U32_MOD] at hmono
  omega
